import Mathlib

/-!
Shallow embedding of the catalog-and-lending core of the repository
(`Parcial 2/Semana 12/Sistema de Gestión de Biblioteca Digital.py` and
`Parcial 2/Semana 11/Sistema Avanzado de Gestión de Inventario.py`).

Python dictionaries are modeled as insertion-ordered association lists
(`List (String × α)`): assignment to a fresh key appends at the end,
assignment to a present key updates the entry in place, `del` removes the
entry.  Python sets of strings are modeled as insertion-ordered duplicate-free
lists.  Exceptions are modeled by returning `Option Err × State`, where the
state component on an error is the state at the moment the exception is
raised (so a mutation performed before a raise is observable, exactly as in
Python).
-/

namespace Catalog

/-- One error constructor per `raise` site of the source, named after the
spec's error kinds; `invalidValue` is the `ValueError` raised by the
`Producto` field validators (the property setters of Semana 11). -/
inductive Err where
  | duplicateKey
  | notFound
  | itemLoaned
  | holderHasLoans
  | alreadyLoaned
  | notLoaned
  | invalidValue
  deriving DecidableEq, Repr

/-- Lookup in an association list, first match wins (a Python dict has at
most one entry per key, so the first match is the entry). -/
def alookup {α : Type} : List (String × α) → String → Option α
  | [], _ => none
  | p :: t, k => if p.1 = k then some p.2 else alookup t k

/-- Python `d[k] = v`: update the entry in place when `k` is present
(keeping its position), append a new entry otherwise. -/
def dinsert {α : Type} : List (String × α) → String → α → List (String × α)
  | [], k, v => [(k, v)]
  | p :: t, k, v => if p.1 = k then (k, v) :: t else p :: dinsert t k v

/-- Python `del d[k]` / `d.pop(k)`: drop the entry with key `k`. -/
def derase {α : Type} (m : List (String × α)) (k : String) : List (String × α) :=
  m.filter (fun p => decide (p.1 ≠ k))

/-- Python `set.add`: append if absent, no-op if present. -/
def setAdd (s : List String) (x : String) : List String :=
  if x ∈ s then s else s ++ [x]

/-- Python `set.discard` / `set.remove` after a membership check: drop the
element. -/
def setDiscard (s : List String) (x : String) : List String :=
  s.filter (fun y => decide (y ≠ x))

/-- `q` is a prefix of `s` (over `List Char`). -/
def hasPre : List Char → List Char → Bool
  | [], _ => true
  | _ :: _, [] => false
  | a :: as, b :: bs => a = b && hasPre as bs

/-- Python `q in s` for strings: `q` occurs as a contiguous substring of
`s`. -/
def hasSub : List Char → List Char → Bool
  | q, [] => q.isEmpty
  | q, b :: t => hasPre q (b :: t) || hasSub q t

/-- Python `q in s` on `String`. -/
def containsStr (q s : String) : Bool := hasSub q.data s.data

/-- Python `str.lower`, restricted to the character repertoire appearing in
this repository (ASCII plus the accented Latin letters of the data). -/
def pyLowerChar (c : Char) : Char :=
  if 'A' ≤ c ∧ c ≤ 'Z' then Char.ofNat (c.toNat + 32)
  else if c = 'Á' then 'á'
  else if c = 'É' then 'é'
  else if c = 'Í' then 'í'
  else if c = 'Ó' then 'ó'
  else if c = 'Ú' then 'ú'
  else if c = 'Ü' then 'ü'
  else if c = 'Ñ' then 'ñ'
  else c

def pyLower (s : String) : String := ⟨s.data.map pyLowerChar⟩

def isSpaceChar (c : Char) : Bool := c = ' ' || c = '\t' || c = '\n' || c = '\r'

/-- Python `str.strip`: drop leading and trailing whitespace. -/
def pyStrip (s : String) : String :=
  ⟨((s.data.dropWhile isSpaceChar).reverse.dropWhile isSpaceChar).reverse⟩

/-- `unicodedata.normalize('NFD', ·)` followed by `encode('ascii','ignore')`
on one character, restricted to the repertoire of the repository: ASCII
characters survive unchanged, accented Latin letters lose their combining
mark, anything else is dropped. -/
def asciiFold (c : Char) : Option Char :=
  if c.toNat < 128 then some c
  else if c = 'á' then some 'a'
  else if c = 'é' then some 'e'
  else if c = 'í' then some 'i'
  else if c = 'ó' then some 'o'
  else if c = 'ú' then some 'u'
  else if c = 'ü' then some 'u'
  else if c = 'ñ' then some 'n'
  else if c = 'Á' then some 'A'
  else if c = 'É' then some 'E'
  else if c = 'Í' then some 'I'
  else if c = 'Ó' then some 'O'
  else if c = 'Ú' then some 'U'
  else if c = 'Ü' then some 'U'
  else if c = 'Ñ' then some 'N'
  else none

/-- `_norm` of the inventory module: strip diacritics, lowercase, strip
whitespace. -/
def norm (s : String) : String :=
  pyStrip (pyLower ⟨s.data.filterMap asciiFold⟩)

/-! ## The `Biblioteca` class (Semana 12) -/

/-- `Libro`: frozen dataclass; `meta` is the `(titulo, autor)` tuple. -/
structure Libro where
  meta : String × String
  categoria : String
  isbn : String
  deriving DecidableEq, Repr

/-- The `titulo` property reads the first tuple component. -/
def Libro.titulo (l : Libro) : String := l.meta.1

/-- The `autor` property reads the second tuple component. -/
def Libro.autor (l : Libro) : String := l.meta.2

/-- `Usuario` dataclass: the `prestados` list is the holder's own record of
the ISBNs currently loaned to them. -/
structure Usuario where
  nombre : String
  user_id : String
  prestados : List String
  deriving DecidableEq, Repr

/-- The mutable state of a `Biblioteca` instance. -/
structure Biblioteca where
  libros : List (String × Libro)
  user_ids : List String
  usuarios : List (String × Usuario)
  prestamos : List (String × String)
  deriving DecidableEq, Repr

def emptyBib : Biblioteca := ⟨[], [], [], []⟩

/-- `Biblioteca.anadir_libro`. -/
def anadir_libro (b : Biblioteca) (l : Libro) : Option Err × Biblioteca :=
  if (alookup b.libros l.isbn).isSome then (some .duplicateKey, b)
  else (none, { b with libros := dinsert b.libros l.isbn l })

/-- `Biblioteca.quitar_libro`: the loan check comes first, then existence. -/
def quitar_libro (b : Biblioteca) (isbn : String) : Option Err × Biblioteca :=
  if (alookup b.prestamos isbn).isSome then (some .itemLoaned, b)
  else if (alookup b.libros isbn).isNone then (some .notFound, b)
  else (none, { b with libros := derase b.libros isbn })

/-- `Biblioteca.registrar_usuario`: uniqueness is checked against the
`user_ids` set, then both the set and the `usuarios` dict are extended. -/
def registrar_usuario (b : Biblioteca) (u : Usuario) : Option Err × Biblioteca :=
  if u.user_id ∈ b.user_ids then (some .duplicateKey, b)
  else (none, { b with user_ids := setAdd b.user_ids u.user_id,
                       usuarios := dinsert b.usuarios u.user_id u })

/-- `Biblioteca.dar_de_baja_usuario`: `usuarios.get` first, then the
`prestados` check, then `user_ids.remove` (which raises `KeyError` if the id
is not in the set) and `del usuarios[user_id]`. -/
def dar_de_baja_usuario (b : Biblioteca) (uid : String) : Option Err × Biblioteca :=
  match alookup b.usuarios uid with
  | none => (some .notFound, b)
  | some u =>
    if u.prestados ≠ [] then (some .holderHasLoans, b)
    else if uid ∈ b.user_ids then
      (none, { b with user_ids := setDiscard b.user_ids uid,
                      usuarios := derase b.usuarios uid })
    else (some .notFound, b)

/-- `Biblioteca.prestar_libro`: checks catalogue, holder and loan state, then
records the loan in `prestamos` and appends the ISBN to the holder's
`prestados` list. -/
def prestar_libro (b : Biblioteca) (isbn uid : String) : Option Err × Biblioteca :=
  if (alookup b.libros isbn).isNone then (some .notFound, b)
  else match alookup b.usuarios uid with
  | none => (some .notFound, b)
  | some u =>
    if (alookup b.prestamos isbn).isSome then (some .alreadyLoaned, b)
    else (none, { b with prestamos := dinsert b.prestamos isbn uid,
                         usuarios := dinsert b.usuarios uid
                           { u with prestados := u.prestados ++ [isbn] } })

/-- `Biblioteca.devolver_libro`: `prestamos.pop(isbn)` happens before the
`self.usuarios[user_id]` lookup, so if the recorded holder were missing the
`KeyError` would leave the popped mapping behind (the intermediate state
`b1`).  The `prestados.remove` is wrapped in `try/except ValueError: pass`,
which is exactly `List.erase` (removing nothing when absent). -/
def devolver_libro (b : Biblioteca) (isbn : String) : Option Err × Biblioteca :=
  match alookup b.prestamos isbn with
  | none => (some .notLoaned, b)
  | some uid =>
    match alookup b.usuarios uid with
    | none => (some .notFound, { b with prestamos := derase b.prestamos isbn })
    | some u =>
      (none, { b with prestamos := derase b.prestamos isbn,
                      usuarios := dinsert b.usuarios uid
                        { u with prestados := u.prestados.erase isbn } })

/-- `Biblioteca.disponible`. -/
def disponible (b : Biblioteca) (isbn : String) : Except Err Bool :=
  if (alookup b.libros isbn).isNone then .error .notFound
  else .ok ((alookup b.prestamos isbn).isNone)

/-- `Biblioteca.buscar_libros`: each given criterion is stripped and
lowercased; a field matches when the query is a substring of the lowercased
field; empty/absent criteria impose no filter; the criteria are conjoined. -/
def buscar_libros (b : Biblioteca) (titulo autor categoria : Option String) :
    List Libro :=
  let q_tit := pyLower (pyStrip (titulo.getD ""))
  let q_aut := pyLower (pyStrip (autor.getD ""))
  let q_cat := pyLower (pyStrip (categoria.getD ""))
  (b.libros.map Prod.snd).filter (fun l =>
    (decide (q_tit = "") || containsStr q_tit (pyLower l.titulo)) &&
    (decide (q_aut = "") || containsStr q_aut (pyLower l.autor)) &&
    (decide (q_cat = "") || containsStr q_cat (pyLower l.categoria)))

/-- The public operations of the service, as an operation alphabet. -/
inductive Op where
  | anadirOp (l : Libro)
  | quitarOp (isbn : String)
  | registrarOp (u : Usuario)
  | bajaOp (uid : String)
  | prestarOp (isbn uid : String)
  | devolverOp (isbn : String)

def applyOp (b : Biblioteca) : Op → Option Err × Biblioteca
  | .anadirOp l => anadir_libro b l
  | .quitarOp isbn => quitar_libro b isbn
  | .registrarOp u => registrar_usuario b u
  | .bajaOp uid => dar_de_baja_usuario b uid
  | .prestarOp isbn uid => prestar_libro b isbn uid
  | .devolverOp isbn => devolver_libro b isbn

/-- States reachable from a fresh service by any sequence of public calls
(failing calls included: the state they leave behind is kept). -/
inductive Reachable : Biblioteca → Prop where
  | init : Reachable emptyBib
  | step : ∀ b op, Reachable b → Reachable (applyOp b op).2

/-- A call is a well-formed registration when the holder record passed to
`registrar_usuario` starts with an empty held list (as every caller in the
repository does). -/
def emptyRegOp : Op → Prop
  | .registrarOp u => u.prestados = []
  | _ => True

/-- Reachability when every registration is well-formed. -/
inductive ReachableE : Biblioteca → Prop where
  | init : ReachableE emptyBib
  | step : ∀ b op, ReachableE b → emptyRegOp op → ReachableE (applyOp b op).2

/-- Every active loan points to a registered holder whose `prestados` list
mentions the loaned ISBN. -/
def InvLU (b : Biblioteca) : Prop :=
  ∀ i uid, alookup b.prestamos i = some uid →
    ∃ u, alookup b.usuarios uid = some u ∧ i ∈ u.prestados

/-- The `user_ids` set and the key set of the `usuarios` dict agree. -/
def InvKeys (b : Biblioteca) : Prop :=
  ∀ uid, (∃ u, alookup b.usuarios uid = some u) ↔ uid ∈ b.user_ids

/-- Each registered holder's `prestados` list holds exactly the ISBNs whose
loan-map entry points at that holder. -/
def InvSync (b : Biblioteca) : Prop :=
  ∀ uid u, alookup b.usuarios uid = some u →
    ∀ i, (i ∈ u.prestados ↔ alookup b.prestamos i = some uid)

/-- No holder's `prestados` list repeats an ISBN. -/
def InvDup (b : Biblioteca) : Prop :=
  ∀ uid u, alookup b.usuarios uid = some u → u.prestados.Nodup

/-- All four internal invariants together. -/
def InvE (b : Biblioteca) : Prop := InvLU b ∧ InvKeys b ∧ InvSync b ∧ InvDup b

/-! ## The `Inventario` class (Semana 11) -/

/-- `Producto` record.  `precio` is a Python float in the source; the claims
settled here never depend on floating-point behaviour, so it is carried as an
integer value. -/
structure Producto where
  pid : String
  nombre : String
  cantidad : Nat
  precio : Int
  deriving DecidableEq, Repr

/-- The mutable state of an `Inventario` instance: the primary dict
`_productos` and the name index `_index_nombre` mapping a normalized name to
the set of ids bearing it (Python sets modeled as insertion-ordered
duplicate-free lists). -/
structure Inventario where
  productos : List (String × Producto)
  index_nombre : List (String × List String)
  deriving DecidableEq, Repr

def emptyInv : Inventario := ⟨[], []⟩

/-- `Inventario._index_add`. -/
def index_add (idx : List (String × List String)) (p : Producto) :
    List (String × List String) :=
  let key := norm p.nombre
  match alookup idx key with
  | none => idx ++ [(key, [p.pid])]
  | some bkt => dinsert idx key (setAdd bkt p.pid)

/-- `Inventario._index_remove`: discard the id from its key's bucket and drop
the key when the bucket becomes empty; a missing or empty bucket is left
alone. -/
def index_remove (idx : List (String × List String)) (p : Producto) :
    List (String × List String) :=
  let key := norm p.nombre
  match alookup idx key with
  | none => idx
  | some bkt =>
    if bkt = [] then idx
    else
      let bkt' := setDiscard bkt p.pid
      if bkt' = [] then derase idx key else dinsert idx key bkt'

/-- `Inventario.agregar`. -/
def agregar (inv : Inventario) (p : Producto) : Option Err × Inventario :=
  if (alookup inv.productos p.pid).isSome then (some .duplicateKey, inv)
  else (none, { productos := dinsert inv.productos p.pid p,
                index_nombre := index_add inv.index_nombre p })

/-- `Inventario.eliminar`. -/
def eliminar (inv : Inventario) (pid : String) : Option Err × Inventario :=
  match alookup inv.productos pid with
  | none => (some .notFound, inv)
  | some p => (none, { productos := derase inv.productos pid,
                       index_nombre := index_remove inv.index_nombre p })

/-- `Inventario.buscar_por_nombre`: exact-normalized-key fast path through
the index (ids resolved against the store in the bucket's own order; an id
missing from the store — impossible in states the class builds, where the
Python code would raise `KeyError` — is skipped), otherwise a linear scan
with normalized substring match. -/
def buscar_por_nombre (inv : Inventario) (consulta : String) : List Producto :=
  let q := norm consulta
  match alookup inv.index_nombre q with
  | some ids => ids.filterMap (fun i => alookup inv.productos i)
  | none =>
    (inv.productos.map Prod.snd).filter (fun p => containsStr q (norm p.nombre))

/-- Code-point lexicographic order on character lists: Python's `<=` on
strings. -/
def lexLe : List Char → List Char → Bool
  | [], _ => true
  | _ :: _, [] => false
  | a :: as, b :: bs =>
    if a.toNat < b.toNat then true
    else if b.toNat < a.toNat then false
    else lexLe as bs

/-- Sort key `lambda x: x.pid`. -/
def pidLe (a b : Producto) : Prop := lexLe a.pid.data b.pid.data = true

/-- Sort key `lambda x: _norm(x.nombre)` (the default ordering). -/
def nomLe (a b : Producto) : Prop :=
  lexLe (norm a.nombre).data (norm b.nombre).data = true

/-- Sort key `lambda x: x.cantidad` with `reverse=True`. -/
def cantGe (a b : Producto) : Prop := b.cantidad ≤ a.cantidad

/-- Sort key `lambda x: x.precio` with `reverse=True`. -/
def precGe (a b : Producto) : Prop := b.precio ≤ a.precio

instance : DecidableRel pidLe := fun a b =>
  inferInstanceAs (Decidable (lexLe a.pid.data b.pid.data = true))

instance : DecidableRel nomLe := fun a b =>
  inferInstanceAs (Decidable (lexLe (norm a.nombre).data (norm b.nombre).data = true))

instance : DecidableRel cantGe := fun a b =>
  inferInstanceAs (Decidable (b.cantidad ≤ a.cantidad))

instance : DecidableRel precGe := fun a b =>
  inferInstanceAs (Decidable (b.precio ≤ a.precio))

/-- `Inventario.listar_todos`: always sorts — by id, by quantity or price
descending, or (for any other value of `orden`, in particular the default
`"nombre"`) by normalized name.  Python's `list.sort` is stable; it is
modeled by the stable `List.insertionSort`. -/
def listar_todos (inv : Inventario) (orden : String) : List Producto :=
  let items := inv.productos.map Prod.snd
  if orden = "id" then List.insertionSort pidLe items
  else if orden = "cantidad" then List.insertionSort cantGe items
  else if orden = "precio" then List.insertionSort precGe items
  else List.insertionSort nomLe items

/-- `Inventario._index_update_nombre`: when the normalized name changed,
remove the id under the old key (via the pseudo-product carrying the old
name) and add it under the new one. -/
def index_update_nombre (idx : List (String × List String)) (p : Producto)
    (nombre_anterior : String) : List (String × List String) :=
  if norm nombre_anterior ≠ norm p.nombre then
    index_add (index_remove idx { p with nombre := nombre_anterior }) p
  else idx

/-- `Inventario.actualizar_nombre`: `obtener` raises `KeyError` for an
unknown id; the `nombre` property setter raises `ValueError` on an empty
string and strips the value; the product is mutated in place in the dict
(same position) and the index patched through `_index_update_nombre`. -/
def actualizar_nombre (inv : Inventario) (pid nuevo : String) :
    Option Err × Inventario :=
  match alookup inv.productos pid with
  | none => (some .notFound, inv)
  | some p =>
    if nuevo = "" then (some .invalidValue, inv)
    else
      let p' := { p with nombre := pyStrip nuevo }
      (none, { productos := dinsert inv.productos pid p',
               index_nombre := index_update_nombre inv.index_nombre p' p.nombre })

/-! ## Concrete states used to instantiate the theorems -/

def libroA : Libro := ⟨("Clean Code", "Robert C. Martin"), "Eng", "I1"⟩

def libroAno : Libro := ⟨("Año", "X"), "Cat", "B1"⟩

def usuarioA : Usuario := ⟨"Ana", "U1", []⟩

def usuarioAL : Usuario := ⟨"Ana", "U1", ["I1"]⟩

def usuarioPre : Usuario := ⟨"X", "U1", ["B1"]⟩

/-- Catalogue with one book and one holder, no loan. -/
def bBase : Biblioteca := ⟨[("I1", libroA)], ["U1"], [("U1", usuarioA)], []⟩

/-- Catalogue with one book loaned to the one holder, both views in sync. -/
def bLoan : Biblioteca :=
  ⟨[("I1", libroA)], ["U1"], [("U1", usuarioAL)], [("I1", "U1")]⟩

/-- Catalogue where the loan map records a loan that the holder's own list
does not mention. -/
def bGhost : Biblioteca :=
  ⟨[("I1", libroA)], ["U1"], [("U1", usuarioA)], [("I1", "U1")]⟩

/-- Catalogue holding the book `Año`, for the diacritic counterexample. -/
def bAno : Biblioteca := ⟨[("B1", libroAno)], [], [], []⟩

/-- Step 1 of a well-formed run: register the holder. -/
def bR1 : Biblioteca := (applyOp emptyBib (Op.registrarOp usuarioA)).2

/-- Step 2: add the book. -/
def bR2 : Biblioteca := (applyOp bR1 (Op.anadirOp libroA)).2

/-- Step 3: loan the book to the holder. -/
def bR3 : Biblioteca := (applyOp bR2 (Op.prestarOp "I1" "U1")).2

/-- State reached by registering a holder whose held list is pre-populated:
reachable by one public call, yet out of sync with the (empty) loan map. -/
def bPre : Biblioteca := (applyOp emptyBib (Op.registrarOp usuarioPre)).2

def prodA : Producto := ⟨"P1", "b", 1, 1⟩

def prodB : Producto := ⟨"P2", "a", 1, 1⟩

/-- Inventory after `agregar(prodA); agregar(prodB)`: insertion order is
`P1` then `P2`, normalized names are `b` then `a`. -/
def invAB : Inventario := (agregar (agregar emptyInv prodA).2 prodB).2

/-- Inventory holding only `prodA`. -/
def invOne : Inventario := (agregar emptyInv prodA).2

/-- Two products whose `cantidad` sort keys tie while their ids order the
other way round: inserted `P9` first, then `P0`. -/
def prodT1 : Producto := ⟨"P9", "b", 5, 1⟩

def prodT2 : Producto := ⟨"P0", "a", 5, 2⟩

def invTie : Inventario := (agregar (agregar emptyInv prodT1).2 prodT2).2

/-- Products for the rename scenario: `P1` is added under name `x`, `P2`
under name `y`, then `P1` is renamed to `y`. -/
def prodX : Producto := ⟨"P1", "x", 1, 1⟩

def prodY : Producto := ⟨"P2", "y", 2, 2⟩

/-- `prodX` after `actualizar_nombre` to `y`. -/
def prodXY : Producto := ⟨"P1", "y", 1, 1⟩

def invRen0 : Inventario := (agregar (agregar emptyInv prodX).2 prodY).2

/-- Inventory after the rename: the scan order is `P1, P2`, but `P1` was
re-added at the end of the bucket for `y`. -/
def invRen : Inventario := (actualizar_nombre invRen0 "P1" "y").2

/-! ## Dictionary lemmas -/

theorem alookup_dinsert_self {α : Type} (m : List (String × α)) (k : String) (v : α) :
    alookup (dinsert m k v) k = some v := by
  induction m with
  | nil => simp [dinsert, alookup]
  | cons p t ih =>
    by_cases h : p.1 = k
    · simp [dinsert, h, alookup]
    · simp [dinsert, h, alookup, ih]

theorem alookup_dinsert_ne {α : Type} {m : List (String × α)} {j k : String}
    (v : α) (h : j ≠ k) : alookup (dinsert m k v) j = alookup m j := by
  have hkj : ¬(k = j) := fun hc => h hc.symm
  induction m with
  | nil => simp [dinsert, alookup, hkj]
  | cons p t ih =>
    by_cases hp : p.1 = k
    · simp only [dinsert, if_pos hp, alookup, hp]
      rw [if_neg hkj, if_neg hkj]
    · simp only [dinsert, if_neg hp, alookup]
      by_cases hj : p.1 = j
      · rw [if_pos hj, if_pos hj]
      · rw [if_neg hj, if_neg hj, ih]

theorem derase_cons_drop {α : Type} {p : String × α} {t : List (String × α)}
    {k : String} (h : p.1 = k) : derase (p :: t) k = derase t k := by
  simp [derase, List.filter_cons, h]

theorem derase_cons_keep {α : Type} {p : String × α} {t : List (String × α)}
    {k : String} (h : ¬(p.1 = k)) : derase (p :: t) k = p :: derase t k := by
  simp [derase, List.filter_cons, h]

theorem alookup_derase_self {α : Type} (m : List (String × α)) (k : String) :
    alookup (derase m k) k = none := by
  induction m with
  | nil => rfl
  | cons p t ih =>
    by_cases h : p.1 = k
    · rw [derase_cons_drop h]; exact ih
    · rw [derase_cons_keep h]
      simp only [alookup, if_neg h]
      exact ih

theorem alookup_derase_ne {α : Type} {m : List (String × α)} {j k : String}
    (h : j ≠ k) : alookup (derase m k) j = alookup m j := by
  induction m with
  | nil => rfl
  | cons p t ih =>
    by_cases hp : p.1 = k
    · have hpj : ¬(p.1 = j) := fun hc => h (hc.symm.trans hp)
      rw [derase_cons_drop hp]
      simp only [alookup, if_neg hpj]
      exact ih
    · rw [derase_cons_keep hp]
      by_cases hj : p.1 = j
      · simp [alookup, hj]
      · simp only [alookup, if_neg hj]
        exact ih

theorem alookup_eq_none {α : Type} {m : List (String × α)} {k : String} :
    alookup m k = none ↔ ∀ q ∈ m, q.1 ≠ k := by
  induction m with
  | nil => simp [alookup]
  | cons p t ih =>
    by_cases h : p.1 = k <;> simp [alookup, h, ih]

theorem dinsert_fresh {α : Type} {m : List (String × α)} {k : String}
    (v : α) (h : alookup m k = none) : dinsert m k v = m ++ [(k, v)] := by
  induction m with
  | nil => simp [dinsert]
  | cons p t ih =>
    simp only [alookup] at h
    by_cases hp : p.1 = k
    · simp [hp] at h
    · simp [hp] at h
      simp [dinsert, hp, ih h]

theorem derase_append_fresh {α : Type} {m : List (String × α)} {k : String}
    (v : α) (h : alookup m k = none) : derase (m ++ [(k, v)]) k = m := by
  have hall := alookup_eq_none.1 h
  simp only [derase, List.filter_append]
  rw [List.filter_eq_self.2 (fun q hq => by simpa using hall q hq)]
  simp [List.filter]

theorem dinsert_self_id {α : Type} {m : List (String × α)} {k : String}
    {v : α} (h : alookup m k = some v) : dinsert m k v = m := by
  induction m with
  | nil => simp [alookup] at h
  | cons p t ih =>
    simp only [alookup] at h
    by_cases hp : p.1 = k
    · simp only [hp, if_true] at h
      have : p = (k, v) := Prod.ext hp (by injection h)
      simp [dinsert, hp, this]
    · simp only [hp, if_false] at h
      simp [dinsert, hp, ih h]

theorem dinsert_dinsert {α : Type} (m : List (String × α)) (k : String)
    (v w : α) : dinsert (dinsert m k v) k w = dinsert m k w := by
  induction m with
  | nil => simp [dinsert]
  | cons p t ih =>
    by_cases hp : p.1 = k <;> simp [dinsert, hp, ih]

theorem alookup_append_none {α : Type} {m : List (String × α)} {k : String}
    (m2 : List (String × α)) (h : alookup m k = none) :
    alookup (m ++ m2) k = alookup m2 k := by
  induction m with
  | nil => simp
  | cons p t ih =>
    simp only [alookup] at h
    by_cases hp : p.1 = k
    · simp [hp] at h
    · simp [hp] at h
      simp [alookup, hp, ih h]

theorem mem_setDiscard {s : List String} {x y : String} :
    y ∈ setDiscard s x ↔ y ∈ s ∧ y ≠ x := by
  simp [setDiscard, List.mem_filter]

theorem setDiscard_append_self {s : List String} {x : String} (h : x ∉ s) :
    setDiscard (s ++ [x]) x = s := by
  simp only [setDiscard, List.filter_append]
  rw [List.filter_eq_self.2 (fun q hq => by
    simp only [decide_eq_true_eq]
    exact fun he => h (he ▸ hq))]
  simp [List.filter]

theorem setAdd_of_not_mem {s : List String} {x : String} (h : x ∉ s) :
    setAdd s x = s ++ [x] := by
  simp [setAdd, h]

theorem mem_setAdd {s : List String} {x y : String} :
    y ∈ setAdd s x ↔ y ∈ s ∨ y = x := by
  by_cases h : x ∈ s
  · simp only [setAdd, if_pos h]
    constructor
    · exact Or.inl
    · rintro (hy | rfl)
      · exact hy
      · exact h
  · simp [setAdd, if_neg h]

/-! ## Substring and lexicographic-order lemmas -/

theorem hasPre_iff : ∀ (q s : List Char), hasPre q s = true ↔ q <+: s
  | [], s => by simp [hasPre, List.nil_prefix]
  | a :: as, [] => by simp [hasPre]
  | a :: as, b :: bs => by
    simp [hasPre, Bool.and_eq_true, decide_eq_true_eq, List.cons_prefix_cons,
      hasPre_iff as bs]

theorem hasSub_iff : ∀ (q s : List Char), hasSub q s = true ↔ q.IsInfix s
  | q, [] => by simp [hasSub, List.isEmpty_iff]
  | q, b :: t => by
    simp [hasSub, Bool.or_eq_true, hasPre_iff, hasSub_iff q t,
      List.infix_cons_iff]

theorem lexLe_total : ∀ (x y : List Char), lexLe x y = true ∨ lexLe y x = true
  | [], _ => Or.inl rfl
  | _ :: _, [] => Or.inr rfl
  | a :: as, b :: bs => by
    rcases Nat.lt_trichotomy a.toNat b.toNat with h | h | h
    · left; simp [lexLe, h]
    · rcases lexLe_total as bs with ih | ih
      · left; simp [lexLe, h, Nat.lt_irrefl, ih]
      · right; simp [lexLe, h.symm, Nat.lt_irrefl, ih]
    · right; simp [lexLe, h]

theorem lexLe_trans : ∀ {x y z : List Char}, lexLe x y = true →
    lexLe y z = true → lexLe x z = true
  | [], _, _, _, _ => rfl
  | _ :: _, [], _, hxy, _ => by simp [lexLe] at hxy
  | _ :: _, _ :: _, [], _, hyz => by simp [lexLe] at hyz
  | a :: as, b :: bs, c :: cs, hxy, hyz => by
    rcases Nat.lt_trichotomy a.toNat b.toNat with h1 | h1 | h1 <;>
      rcases Nat.lt_trichotomy b.toNat c.toNat with h2 | h2 | h2
    · simp [lexLe, Nat.lt_trans h1 h2]
    · simp [lexLe, h2 ▸ h1]
    · simp [lexLe, Nat.lt_asymm h2, h2] at hyz
    · simp [lexLe, h1.symm ▸ h2]
    · have hxy' : lexLe as bs = true := by
        simpa [lexLe, h1, Nat.lt_irrefl] using hxy
      have hyz' : lexLe bs cs = true := by
        simpa [lexLe, h2, Nat.lt_irrefl] using hyz
      have h3 : a.toNat = c.toNat := h1.trans h2
      simpa [lexLe, h3, Nat.lt_irrefl] using lexLe_trans hxy' hyz'
    · simp [lexLe, Nat.lt_asymm h2, h2] at hyz
    · simp [lexLe, Nat.lt_asymm h1, h1] at hxy
    · simp [lexLe, Nat.lt_asymm h1, h1] at hxy
    · simp [lexLe, Nat.lt_asymm h1, h1] at hxy

theorem lexLe_refl (x : List Char) : lexLe x x = true :=
  (lexLe_total x x).elim id id

theorem alookup_some_mem {α : Type} {m : List (String × α)} {k : String}
    {v : α} (h : alookup m k = some v) : (k, v) ∈ m := by
  induction m with
  | nil => exact Option.noConfusion h
  | cons p t ih =>
    simp only [alookup] at h
    by_cases hp : p.1 = k
    · rw [if_pos hp] at h
      injection h with he
      have hpe : p = (k, v) := Prod.ext hp he
      exact List.mem_cons.2 (Or.inl hpe.symm)
    · rw [if_neg hp] at h
      exact List.mem_cons_of_mem _ (ih h)

theorem mem_alookup_of_nodupKeys {α : Type} {m : List (String × α)}
    {k : String} {v : α} (hnd : (m.map Prod.fst).Nodup) (h : (k, v) ∈ m) :
    alookup m k = some v := by
  induction m with
  | nil => exact absurd h (List.not_mem_nil _)
  | cons p t ih =>
    simp only [List.map_cons, List.nodup_cons] at hnd
    rcases List.mem_cons.1 h with he | hm
    · have h1 : p.1 = k := (congrArg Prod.fst he).symm
      have h2 : p.2 = v := (congrArg Prod.snd he).symm
      simp [alookup, h1, h2]
    · have hk : k ∈ t.map Prod.fst := List.mem_map.2 ⟨(k, v), hm, rfl⟩
      have hp : ¬(p.1 = k) := fun hc => hnd.1 (by rw [hc]; exact hk)
      simp only [alookup, if_neg hp]
      exact ih hnd.2 hm

theorem filter_orderedInsert {α : Type} (r : α → α → Prop) [DecidableRel r]
    (P : α → Bool) (a : α) :
    ∀ L : List α, (P a = true → ∀ c ∈ L, P c = true → r a c) →
      (List.orderedInsert r a L).filter P
        = if P a = true then a :: L.filter P else L.filter P
  | [], _ => by
    cases hPa : P a <;> simp [List.orderedInsert, List.filter_cons, hPa]
  | b :: L, hco => by
    by_cases hr : r a b
    · simp only [List.orderedInsert, if_pos hr]
      cases hPa : P a <;> simp [List.filter_cons, hPa]
    · simp only [List.orderedInsert, if_neg hr]
      have hrec := filter_orderedInsert r P a L
        (fun hPa c hc hPc => hco hPa c (List.mem_cons_of_mem b hc) hPc)
      by_cases hPa : P a = true
      · have hPb : P b = false := by
          cases hPb : P b with
          | true => exact absurd (hco hPa b (List.mem_cons_self b L) hPb) hr
          | false => rfl
        simp [List.filter_cons, hPb, hrec, hPa]
      · have hPa2 : P a = false := by simpa using hPa
        simp [List.filter_cons, hrec, hPa2]

theorem filter_insertionSort {α : Type} (r : α → α → Prop) [DecidableRel r]
    (P : α → Bool) (hP : ∀ x y, P x = true → P y = true → r x y) :
    ∀ l : List α, (List.insertionSort r l).filter P = l.filter P
  | [] => rfl
  | a :: l => by
    simp only [List.insertionSort]
    rw [filter_orderedInsert r P a _ (fun hPa c _ hPc => hP a c hPa hPc)]
    rw [filter_insertionSort r P hP l]
    cases hPa : P a <;> simp [List.filter_cons, hPa]

theorem listar_id (inv : Inventario) :
    listar_todos inv "id"
      = List.insertionSort pidLe (inv.productos.map Prod.snd) := by
  simp [listar_todos]

theorem listar_cantidad (inv : Inventario) :
    listar_todos inv "cantidad"
      = List.insertionSort cantGe (inv.productos.map Prod.snd) := by
  simp [listar_todos]

theorem listar_precio (inv : Inventario) :
    listar_todos inv "precio"
      = List.insertionSort precGe (inv.productos.map Prod.snd) := by
  simp [listar_todos]

theorem listar_nombre (inv : Inventario) :
    listar_todos inv "nombre"
      = List.insertionSort nomLe (inv.productos.map Prod.snd) := by
  simp [listar_todos]

/-! ## Preservation of the internal invariants -/

theorem invE_anadir {b : Biblioteca} (h : InvE b) (l : Libro) :
    InvE (anadir_libro b l).2 := by
  unfold anadir_libro
  split
  · exact h
  · exact h

theorem invE_quitar {b : Biblioteca} (h : InvE b) (isbn : String) :
    InvE (quitar_libro b isbn).2 := by
  unfold quitar_libro
  split
  · exact h
  · split
    · exact h
    · exact h

theorem invLK_registrar {b : Biblioteca} (hLU : InvLU b) (hK : InvKeys b)
    (u : Usuario) :
    InvLU (registrar_usuario b u).2 ∧ InvKeys (registrar_usuario b u).2 := by
  unfold registrar_usuario
  split
  · exact ⟨hLU, hK⟩
  · rename_i hmem
    have hnone : alookup b.usuarios u.user_id = none := by
      cases hc : alookup b.usuarios u.user_id with
      | none => rfl
      | some u0 => exact absurd ((hK u.user_id).1 ⟨u0, hc⟩) hmem
    constructor
    · intro i uid hi
      obtain ⟨u0, hu0, hm0⟩ := hLU i uid hi
      have hne : uid ≠ u.user_id := by
        intro hEq
        rw [hEq, hnone] at hu0
        exact Option.noConfusion hu0
      refine ⟨u0, ?_, hm0⟩
      show alookup (dinsert b.usuarios u.user_id u) uid = some u0
      rw [alookup_dinsert_ne _ hne]
      exact hu0
    · intro v
      by_cases hv : v = u.user_id
      · subst hv
        constructor
        · intro _
          exact mem_setAdd.2 (Or.inr rfl)
        · intro _
          exact ⟨u, alookup_dinsert_self _ _ _⟩
      · constructor
        · rintro ⟨u0, hu0⟩
          rw [show alookup (dinsert b.usuarios u.user_id u) v = alookup b.usuarios v
            from alookup_dinsert_ne _ hv] at hu0
          exact mem_setAdd.2 (Or.inl ((hK v).1 ⟨u0, hu0⟩))
        · intro hvmem
          rcases mem_setAdd.1 hvmem with h | h
          · obtain ⟨u0, hu0⟩ := (hK v).2 h
            refine ⟨u0, ?_⟩
            show alookup (dinsert b.usuarios u.user_id u) v = some u0
            rw [alookup_dinsert_ne _ hv]
            exact hu0
          · exact absurd h hv

theorem invSD_registrar {b : Biblioteca} (h : InvE b) (u : Usuario)
    (hemp : u.prestados = []) :
    InvSync (registrar_usuario b u).2 ∧ InvDup (registrar_usuario b u).2 := by
  obtain ⟨hLU, hK, hS, hD⟩ := h
  unfold registrar_usuario
  split
  · exact ⟨hS, hD⟩
  · rename_i hmem
    have hnone : alookup b.usuarios u.user_id = none := by
      cases hc : alookup b.usuarios u.user_id with
      | none => rfl
      | some u0 => exact absurd ((hK u.user_id).1 ⟨u0, hc⟩) hmem
    constructor
    · intro v rec hrec i
      by_cases hv : v = u.user_id
      · subst hv
        rw [alookup_dinsert_self] at hrec
        injection hrec with he
        subst he
        constructor
        · intro hi
          rw [hemp] at hi
          exact absurd hi (List.not_mem_nil i)
        · intro hi
          obtain ⟨u0, hu0, _⟩ := hLU i u.user_id hi
          rw [hnone] at hu0
          exact Option.noConfusion hu0
      · rw [alookup_dinsert_ne _ hv] at hrec
        exact hS v rec hrec i
    · intro v rec hrec
      by_cases hv : v = u.user_id
      · subst hv
        rw [alookup_dinsert_self] at hrec
        injection hrec with he
        subst he
        rw [hemp]
        exact List.nodup_nil
      · rw [alookup_dinsert_ne _ hv] at hrec
        exact hD v rec hrec

theorem invLK_anadir {b : Biblioteca} (hLU : InvLU b) (hK : InvKeys b)
    (l : Libro) : InvLU (anadir_libro b l).2 ∧ InvKeys (anadir_libro b l).2 := by
  unfold anadir_libro
  split
  · exact ⟨hLU, hK⟩
  · exact ⟨hLU, hK⟩

theorem invLK_quitar {b : Biblioteca} (hLU : InvLU b) (hK : InvKeys b)
    (isbn : String) :
    InvLU (quitar_libro b isbn).2 ∧ InvKeys (quitar_libro b isbn).2 := by
  unfold quitar_libro
  split
  · exact ⟨hLU, hK⟩
  · split
    · exact ⟨hLU, hK⟩
    · exact ⟨hLU, hK⟩

theorem invLK_baja {b : Biblioteca} (hLU : InvLU b) (hK : InvKeys b)
    (uid : String) :
    InvLU (dar_de_baja_usuario b uid).2 ∧ InvKeys (dar_de_baja_usuario b uid).2 := by
  unfold dar_de_baja_usuario
  split
  · exact ⟨hLU, hK⟩
  · rename_i u hu
    split
    · exact ⟨hLU, hK⟩
    · rename_i hemp
      have he : u.prestados = [] := not_ne_iff.1 hemp
      split
      · constructor
        · intro i vid hi
          obtain ⟨u0, hu0, hm0⟩ := hLU i vid hi
          have hne : vid ≠ uid := by
            intro hEq
            subst hEq
            rw [hu] at hu0
            injection hu0 with he2
            subst he2
            rw [he] at hm0
            exact absurd hm0 (List.not_mem_nil i)
          refine ⟨u0, ?_, hm0⟩
          show alookup (derase b.usuarios uid) vid = some u0
          rw [alookup_derase_ne hne]
          exact hu0
        · intro v
          by_cases hv : v = uid
          · subst hv
            constructor
            · rintro ⟨u0, hu0⟩
              rw [show alookup (derase b.usuarios v) v = none from
                alookup_derase_self _ _] at hu0
              exact Option.noConfusion hu0
            · intro hvmem
              exact absurd rfl (mem_setDiscard.1 hvmem).2
          · constructor
            · rintro ⟨u0, hu0⟩
              rw [alookup_derase_ne hv] at hu0
              exact mem_setDiscard.2 ⟨(hK v).1 ⟨u0, hu0⟩, hv⟩
            · intro hvmem
              obtain ⟨u0, hu0⟩ := (hK v).2 (mem_setDiscard.1 hvmem).1
              refine ⟨u0, ?_⟩
              show alookup (derase b.usuarios uid) v = some u0
              rw [alookup_derase_ne hv]
              exact hu0
      · exact ⟨hLU, hK⟩

theorem invSD_baja {b : Biblioteca} (h : InvE b) (uid : String) :
    InvSync (dar_de_baja_usuario b uid).2 ∧ InvDup (dar_de_baja_usuario b uid).2 := by
  obtain ⟨hLU, hK, hS, hD⟩ := h
  unfold dar_de_baja_usuario
  split
  · exact ⟨hS, hD⟩
  · rename_i u hu
    split
    · exact ⟨hS, hD⟩
    · split
      · constructor
        · intro v rec hrec i
          by_cases hv : v = uid
          · subst hv
            rw [show alookup (derase b.usuarios v) v = none from
              alookup_derase_self _ _] at hrec
            exact Option.noConfusion hrec
          · rw [alookup_derase_ne hv] at hrec
            exact hS v rec hrec i
        · intro v rec hrec
          by_cases hv : v = uid
          · subst hv
            rw [show alookup (derase b.usuarios v) v = none from
              alookup_derase_self _ _] at hrec
            exact Option.noConfusion hrec
          · rw [alookup_derase_ne hv] at hrec
            exact hD v rec hrec
      · exact ⟨hS, hD⟩

theorem invLK_prestar {b : Biblioteca} (hLU : InvLU b) (hK : InvKeys b)
    (isbn uid : String) :
    InvLU (prestar_libro b isbn uid).2 ∧ InvKeys (prestar_libro b isbn uid).2 := by
  unfold prestar_libro
  split
  · exact ⟨hLU, hK⟩
  · split
    · exact ⟨hLU, hK⟩
    · rename_i u hu
      split
      · exact ⟨hLU, hK⟩
      · constructor
        · intro i vid hi
          by_cases hii : i = isbn
          · subst hii
            rw [alookup_dinsert_self] at hi
            injection hi with he
            subst he
            refine ⟨{ u with prestados := u.prestados ++ [i] }, ?_, by simp⟩
            exact alookup_dinsert_self _ _ _
          · rw [alookup_dinsert_ne _ hii] at hi
            obtain ⟨u0, hu0, hm0⟩ := hLU i vid hi
            by_cases hvu : vid = uid
            · subst hvu
              rw [hu] at hu0
              injection hu0 with he
              subst he
              refine ⟨{ u with prestados := u.prestados ++ [isbn] }, ?_, ?_⟩
              · exact alookup_dinsert_self _ _ _
              · exact List.mem_append.2 (Or.inl hm0)
            · refine ⟨u0, ?_, hm0⟩
              rw [alookup_dinsert_ne _ hvu]
              exact hu0
        · intro v
          by_cases hv : v = uid
          · subst hv
            constructor
            · intro _
              exact (hK v).1 ⟨u, hu⟩
            · intro _
              exact ⟨_, alookup_dinsert_self _ _ _⟩
          · constructor
            · rintro ⟨u0, hu0⟩
              rw [alookup_dinsert_ne _ hv] at hu0
              exact (hK v).1 ⟨u0, hu0⟩
            · intro hm
              obtain ⟨u0, hu0⟩ := (hK v).2 hm
              refine ⟨u0, ?_⟩
              rw [alookup_dinsert_ne _ hv]
              exact hu0

theorem invSD_prestar {b : Biblioteca} (h : InvE b) (isbn uid : String) :
    InvSync (prestar_libro b isbn uid).2 ∧ InvDup (prestar_libro b isbn uid).2 := by
  obtain ⟨hLU, hK, hS, hD⟩ := h
  unfold prestar_libro
  split
  · exact ⟨hS, hD⟩
  · split
    · exact ⟨hS, hD⟩
    · rename_i u hu
      split
      · exact ⟨hS, hD⟩
      · rename_i hnl
        have hnone : alookup b.prestamos isbn = none := by
          cases hc : alookup b.prestamos isbn with
          | none => rfl
          | some x => rw [hc] at hnl; exact absurd rfl hnl
        have hnotmem : isbn ∉ u.prestados := by
          intro hmm
          have hthis := (hS uid u hu isbn).1 hmm
          rw [hnone] at hthis
          exact Option.noConfusion hthis
        constructor
        · intro v rec hrec i
          by_cases hv : v = uid
          · subst hv
            rw [alookup_dinsert_self] at hrec
            injection hrec with he
            subst he
            constructor
            · intro hi
              rcases List.mem_append.1 hi with hi | hi
              · have hthis := (hS v u hu i).1 hi
                by_cases hii : i = isbn
                · subst hii
                  rw [hnone] at hthis
                  exact Option.noConfusion hthis
                · rw [alookup_dinsert_ne _ hii]
                  exact hthis
              · have hii : i = isbn := by simpa using hi
                subst hii
                exact alookup_dinsert_self _ _ _
            · intro hi
              by_cases hii : i = isbn
              · subst hii
                exact List.mem_append.2 (Or.inr (by simp))
              · rw [alookup_dinsert_ne _ hii] at hi
                exact List.mem_append.2 (Or.inl ((hS v u hu i).2 hi))
          · rw [alookup_dinsert_ne _ hv] at hrec
            constructor
            · intro hi
              have hthis := (hS v rec hrec i).1 hi
              by_cases hii : i = isbn
              · subst hii
                rw [hnone] at hthis
                exact Option.noConfusion hthis
              · rw [alookup_dinsert_ne _ hii]
                exact hthis
            · intro hi
              by_cases hii : i = isbn
              · subst hii
                rw [alookup_dinsert_self] at hi
                injection hi with he2
                exact absurd he2.symm hv
              · rw [alookup_dinsert_ne _ hii] at hi
                exact (hS v rec hrec i).2 hi
        · intro v rec hrec
          by_cases hv : v = uid
          · subst hv
            rw [alookup_dinsert_self] at hrec
            injection hrec with he
            subst he
            simp only [List.nodup_append]
            refine ⟨hD v u hu, by simp, ?_⟩
            intro x hx hx2
            have hxx : x = isbn := by simpa using hx2
            exact hnotmem (hxx ▸ hx)
          · rw [alookup_dinsert_ne _ hv] at hrec
            exact hD v rec hrec

theorem invLK_devolver {b : Biblioteca} (hLU : InvLU b) (hK : InvKeys b)
    (isbn : String) :
    InvLU (devolver_libro b isbn).2 ∧ InvKeys (devolver_libro b isbn).2 := by
  unfold devolver_libro
  split
  · exact ⟨hLU, hK⟩
  · rename_i uid hp
    split
    · constructor
      · intro j vid hj
        by_cases hji : j = isbn
        · subst hji
          rw [alookup_derase_self] at hj
          exact Option.noConfusion hj
        · rw [alookup_derase_ne hji] at hj
          exact hLU j vid hj
      · exact hK
    · rename_i u hu
      constructor
      · intro j vid hj
        by_cases hji : j = isbn
        · subst hji
          rw [alookup_derase_self] at hj
          exact Option.noConfusion hj
        · rw [alookup_derase_ne hji] at hj
          obtain ⟨u0, hu0, hm0⟩ := hLU j vid hj
          by_cases hv : vid = uid
          · subst hv
            rw [hu] at hu0
            injection hu0 with he
            subst he
            exact ⟨_, alookup_dinsert_self _ _ _, (List.mem_erase_of_ne hji).2 hm0⟩
          · refine ⟨u0, ?_, hm0⟩
            rw [alookup_dinsert_ne _ hv]
            exact hu0
      · intro v
        by_cases hv : v = uid
        · subst hv
          constructor
          · intro _
            exact (hK v).1 ⟨u, hu⟩
          · intro _
            exact ⟨_, alookup_dinsert_self _ _ _⟩
        · constructor
          · rintro ⟨u0, hu0⟩
            rw [alookup_dinsert_ne _ hv] at hu0
            exact (hK v).1 ⟨u0, hu0⟩
          · intro hm
            obtain ⟨u0, hu0⟩ := (hK v).2 hm
            refine ⟨u0, ?_⟩
            rw [alookup_dinsert_ne _ hv]
            exact hu0

theorem invSD_devolver {b : Biblioteca} (h : InvE b) (isbn : String) :
    InvSync (devolver_libro b isbn).2 ∧ InvDup (devolver_libro b isbn).2 := by
  obtain ⟨hLU, hK, hS, hD⟩ := h
  unfold devolver_libro
  split
  · exact ⟨hS, hD⟩
  · rename_i uid hp
    split
    · rename_i hun
      obtain ⟨u0, hu0, _⟩ := hLU isbn uid hp
      rw [hun] at hu0
      exact Option.noConfusion hu0
    · rename_i u hu
      constructor
      · intro v rec hrec i
        by_cases hv : v = uid
        · subst hv
          rw [alookup_dinsert_self] at hrec
          injection hrec with he
          subst he
          by_cases hii : i = isbn
          · subst hii
            constructor
            · intro hi
              exact absurd (((hD v u hu).mem_erase_iff).1 hi).1
                (not_not_intro rfl)
            · intro hi
              rw [alookup_derase_self] at hi
              exact Option.noConfusion hi
          · constructor
            · intro hi
              rw [alookup_derase_ne hii]
              exact (hS v u hu i).1 ((List.mem_erase_of_ne hii).1 hi)
            · intro hi
              rw [alookup_derase_ne hii] at hi
              exact (List.mem_erase_of_ne hii).2 ((hS v u hu i).2 hi)
        · rw [alookup_dinsert_ne _ hv] at hrec
          by_cases hii : i = isbn
          · subst hii
            constructor
            · intro hi
              have hthis := (hS v rec hrec i).1 hi
              rw [hp] at hthis
              injection hthis with he2
              exact absurd he2.symm hv
            · intro hi
              rw [alookup_derase_self] at hi
              exact Option.noConfusion hi
          · constructor
            · intro hi
              rw [alookup_derase_ne hii]
              exact (hS v rec hrec i).1 hi
            · intro hi
              rw [alookup_derase_ne hii] at hi
              exact (hS v rec hrec i).2 hi
      · intro v rec hrec
        by_cases hv : v = uid
        · subst hv
          rw [alookup_dinsert_self] at hrec
          injection hrec with he
          subst he
          exact List.Nodup.erase isbn (hD v u hu)
        · rw [alookup_dinsert_ne _ hv] at hrec
          exact hD v rec hrec

theorem reachable_inv {b : Biblioteca} (h : Reachable b) :
    InvLU b ∧ InvKeys b := by
  induction h with
  | init =>
    constructor
    · intro i uid hi
      exact Option.noConfusion hi
    · intro v
      constructor
      · rintro ⟨u0, hu0⟩
        exact Option.noConfusion hu0
      · intro hm
        exact absurd hm (List.not_mem_nil v)
  | step b op hb ih =>
    obtain ⟨hLU, hK⟩ := ih
    cases op with
    | anadirOp l => exact invLK_anadir hLU hK l
    | quitarOp isbn => exact invLK_quitar hLU hK isbn
    | registrarOp u => exact invLK_registrar hLU hK u
    | bajaOp uid => exact invLK_baja hLU hK uid
    | prestarOp isbn uid => exact invLK_prestar hLU hK isbn uid
    | devolverOp isbn => exact invLK_devolver hLU hK isbn

theorem reachableE_inv {b : Biblioteca} (h : ReachableE b) : InvE b := by
  induction h with
  | init =>
    refine ⟨?_, ?_, ?_, ?_⟩
    · intro i uid hi
      exact Option.noConfusion hi
    · intro v
      constructor
      · rintro ⟨u0, hu0⟩
        exact Option.noConfusion hu0
      · intro hm
        exact absurd hm (List.not_mem_nil v)
    · intro v rec hrec
      exact Option.noConfusion hrec
    · intro v rec hrec
      exact Option.noConfusion hrec
  | step b op hb hop ih =>
    cases op with
    | anadirOp l => exact invE_anadir ih l
    | quitarOp isbn => exact invE_quitar ih isbn
    | registrarOp u =>
      obtain ⟨hS2, hD2⟩ := invSD_registrar ih u hop
      obtain ⟨hLU2, hK2⟩ := invLK_registrar ih.1 ih.2.1 u
      exact ⟨hLU2, hK2, hS2, hD2⟩
    | bajaOp uid =>
      obtain ⟨hS2, hD2⟩ := invSD_baja ih uid
      obtain ⟨hLU2, hK2⟩ := invLK_baja ih.1 ih.2.1 uid
      exact ⟨hLU2, hK2, hS2, hD2⟩
    | prestarOp isbn uid =>
      obtain ⟨hS2, hD2⟩ := invSD_prestar ih isbn uid
      obtain ⟨hLU2, hK2⟩ := invLK_prestar ih.1 ih.2.1 isbn uid
      exact ⟨hLU2, hK2, hS2, hD2⟩
    | devolverOp isbn =>
      obtain ⟨hS2, hD2⟩ := invSD_devolver ih isbn
      obtain ⟨hLU2, hK2⟩ := invLK_devolver ih.1 ih.2.1 isbn
      exact ⟨hLU2, hK2, hS2, hD2⟩

theorem applyOp_err {b : Biblioteca} (hLU : InvLU b) (op : Op) {e : Err}
    {b' : Biblioteca} (h : applyOp b op = (some e, b')) : b' = b := by
  cases op with
  | anadirOp l =>
    simp only [applyOp] at h
    unfold anadir_libro at h
    split at h
    · injection h with h1 h2
      exact h2.symm
    · injection h with h1 h2
      exact Option.noConfusion h1
  | quitarOp isbn =>
    simp only [applyOp] at h
    unfold quitar_libro at h
    split at h
    · injection h with h1 h2
      exact h2.symm
    · split at h
      · injection h with h1 h2
        exact h2.symm
      · injection h with h1 h2
        exact Option.noConfusion h1
  | registrarOp u =>
    simp only [applyOp] at h
    unfold registrar_usuario at h
    split at h
    · injection h with h1 h2
      exact h2.symm
    · injection h with h1 h2
      exact Option.noConfusion h1
  | bajaOp uid =>
    simp only [applyOp] at h
    unfold dar_de_baja_usuario at h
    split at h
    · injection h with h1 h2
      exact h2.symm
    · split at h
      · injection h with h1 h2
        exact h2.symm
      · split at h
        · injection h with h1 h2
          exact Option.noConfusion h1
        · injection h with h1 h2
          exact h2.symm
  | prestarOp isbn uid =>
    simp only [applyOp] at h
    unfold prestar_libro at h
    split at h
    · injection h with h1 h2
      exact h2.symm
    · split at h
      · injection h with h1 h2
        exact h2.symm
      · split at h
        · injection h with h1 h2
          exact h2.symm
        · injection h with h1 h2
          exact Option.noConfusion h1
  | devolverOp isbn =>
    simp only [applyOp] at h
    unfold devolver_libro at h
    split at h
    · injection h with h1 h2
      exact h2.symm
    · rename_i uid hp
      split at h
      · rename_i hun
        obtain ⟨u0, hu0, _⟩ := hLU isbn uid hp
        rw [hun] at hu0
        exact Option.noConfusion hu0
      · injection h with h1 h2
        exact Option.noConfusion h1

theorem devolver_notLoaned {b : Biblioteca} {isbn : String}
    (h : alookup b.prestamos isbn = none) :
    (devolver_libro b isbn).1 = some Err.notLoaned := by
  simp [devolver_libro, h]

theorem reachableE_bR1 : ReachableE bR1 :=
  ReachableE.step emptyBib (Op.registrarOp usuarioA) ReachableE.init rfl

theorem reachableE_bR2 : ReachableE bR2 :=
  ReachableE.step bR1 (Op.anadirOp libroA) reachableE_bR1 trivial

theorem reachableE_bR3 : ReachableE bR3 :=
  ReachableE.step bR2 (Op.prestarOp "I1" "U1") reachableE_bR2 trivial

theorem baja_err_iff {b : Biblioteca} {uid : String} {u : Usuario}
    (hu : alookup b.usuarios uid = some u) :
    ((dar_de_baja_usuario b uid).1 = some Err.holderHasLoans ↔
      u.prestados ≠ []) := by
  by_cases hpr : u.prestados = []
  · simp only [dar_de_baja_usuario, hu]
    rw [if_neg (not_ne_iff.2 hpr)]
    split <;> simp [hpr]
  · simp [dar_de_baja_usuario, hu, hpr]

/-! ## Claim theorems -/

/-- C1: for every state whose catalogue contains `isbn`, `disponible` returns
`ok true` exactly when the loan map has no entry for `isbn`; a successful
`prestar_libro` adds exactly the entry `isbn ↦ uid` to the loan map (all
other keys unchanged), and a successful `devolver_libro` removes exactly the
entry for `isbn`. -/
theorem c1_available_iff_unloaned :
    (∀ (b : Biblioteca) (isbn : String), (alookup b.libros isbn).isSome = true →
      (disponible b isbn = Except.ok true ↔ alookup b.prestamos isbn = none)) ∧
    (∀ (b : Biblioteca) (isbn uid : String) (b' : Biblioteca),
      prestar_libro b isbn uid = (none, b') →
      alookup b'.prestamos isbn = some uid ∧
      ∀ j, j ≠ isbn → alookup b'.prestamos j = alookup b.prestamos j) ∧
    (∀ (b : Biblioteca) (isbn : String) (b' : Biblioteca),
      devolver_libro b isbn = (none, b') →
      alookup b'.prestamos isbn = none ∧
      ∀ j, j ≠ isbn → alookup b'.prestamos j = alookup b.prestamos j) := by
  refine ⟨?_, ?_, ?_⟩
  · intro b isbn h
    cases hc : alookup b.libros isbn with
    | none => rw [hc] at h; simp at h
    | some l =>
      simp [disponible, hc, Option.isNone_iff_eq_none]
  · intro b isbn uid b' h
    unfold prestar_libro at h
    split at h
    · injection h with h1 h2
      exact Option.noConfusion h1
    · split at h
      · injection h with h1 h2
        exact Option.noConfusion h1
      · split at h
        · injection h with h1 h2
          exact Option.noConfusion h1
        · injection h with h1 h2
          subst h2
          exact ⟨alookup_dinsert_self _ _ _, fun j hj => alookup_dinsert_ne _ hj⟩
  · intro b isbn b' h
    unfold devolver_libro at h
    split at h
    · injection h with h1 h2
      exact Option.noConfusion h1
    · split at h
      · injection h with h1 h2
        exact Option.noConfusion h1
      · injection h with h1 h2
        subst h2
        exact ⟨alookup_derase_self _ _, fun j hj => alookup_derase_ne hj⟩

/-- Witness for C1 at a concrete catalogue. -/
theorem c1_available_iff_unloaned_witness :
    (disponible bBase "I1" = Except.ok true ↔ alookup bBase.prestamos "I1" = none) ∧
    alookup bLoan.prestamos "I1" = some "U1" ∧
    alookup bLoan.prestamos "J" = alookup bBase.prestamos "J" ∧
    alookup (devolver_libro bLoan "I1").2.prestamos "I1" = none :=
  ⟨c1_available_iff_unloaned.1 bBase "I1" (by decide),
   (c1_available_iff_unloaned.2.1 bBase "I1" "U1" bLoan (by decide)).1,
   (c1_available_iff_unloaned.2.1 bBase "I1" "U1" bLoan (by decide)).2 "J" (by decide),
   (c1_available_iff_unloaned.2.2 bLoan "I1" (devolver_libro bLoan "I1").2 (by decide)).1⟩

/-- C2: on every state reachable by public calls, a call that raises a typed
failure leaves the entire state exactly as it was before the call; the
inventory module's `agregar`/`eliminar` are failure-atomic in every state. -/
theorem c2_failure_leaves_state_unchanged :
    (∀ (b : Biblioteca) (op : Op) (e : Err) (b' : Biblioteca), Reachable b →
      applyOp b op = (some e, b') → b' = b) ∧
    (∀ (inv : Inventario) (p : Producto) (e : Err) (inv' : Inventario),
      agregar inv p = (some e, inv') → inv' = inv) ∧
    (∀ (inv : Inventario) (pid : String) (e : Err) (inv' : Inventario),
      eliminar inv pid = (some e, inv') → inv' = inv) := by
  refine ⟨?_, ?_, ?_⟩
  · intro b op e b' hr h
    exact applyOp_err (reachable_inv hr).1 op h
  · intro inv p e inv' h
    unfold agregar at h
    split at h
    · injection h with h1 h2
      exact h2.symm
    · injection h with h1 h2
      exact Option.noConfusion h1
  · intro inv pid e inv' h
    unfold eliminar at h
    split at h
    · injection h with h1 h2
      exact h2.symm
    · injection h with h1 h2
      exact Option.noConfusion h1

/-- Witness for C2: concrete failing calls leave the state untouched. -/
theorem c2_failure_leaves_state_unchanged_witness :
    (applyOp emptyBib (Op.quitarOp "Z")).2 = emptyBib ∧
    (agregar invOne prodA).2 = invOne ∧
    (eliminar emptyInv "Z").2 = emptyInv :=
  ⟨c2_failure_leaves_state_unchanged.1 emptyBib (Op.quitarOp "Z") Err.notFound
      (applyOp emptyBib (Op.quitarOp "Z")).2 Reachable.init (by decide),
   c2_failure_leaves_state_unchanged.2.1 invOne prodA Err.duplicateKey
      (agregar invOne prodA).2 (by decide),
   c2_failure_leaves_state_unchanged.2.2 emptyInv "Z" Err.notFound
      (eliminar emptyInv "Z").2 (by decide)⟩

/-- C6: returning is not idempotent: when `isbn` is loaned (to a registered
holder) the first `devolver_libro` succeeds and an immediately repeated one
fails with `notLoaned`; in general `devolver_libro` fails with `notLoaned`
whenever the loan map has no entry for `isbn`. -/
theorem c6_return_not_idempotent :
    (∀ (b : Biblioteca) (isbn uid : String) (u : Usuario),
      alookup b.prestamos isbn = some uid → alookup b.usuarios uid = some u →
      (devolver_libro b isbn).1 = none ∧
      (devolver_libro (devolver_libro b isbn).2 isbn).1 = some Err.notLoaned) ∧
    (∀ (b : Biblioteca) (isbn : String), alookup b.prestamos isbn = none →
      (devolver_libro b isbn).1 = some Err.notLoaned) := by
  constructor
  · intro b isbn uid u hp hu
    constructor
    · simp [devolver_libro, hp, hu]
    · have h2 : (devolver_libro b isbn).2.prestamos = derase b.prestamos isbn := by
        simp [devolver_libro, hp, hu]
      have h3 : alookup (devolver_libro b isbn).2.prestamos isbn = none := by
        rw [h2]
        exact alookup_derase_self _ _
      exact devolver_notLoaned h3
  · intro b isbn h
    exact devolver_notLoaned h

/-- Witness for C6 on the concrete loaned catalogue. -/
theorem c6_return_not_idempotent_witness :
    (devolver_libro bLoan "I1").1 = none ∧
    (devolver_libro (devolver_libro bLoan "I1").2 "I1").1 = some Err.notLoaned ∧
    (devolver_libro bBase "I1").1 = some Err.notLoaned :=
  ⟨(c6_return_not_idempotent.1 bLoan "I1" "U1" usuarioAL (by decide) (by decide)).1,
   (c6_return_not_idempotent.1 bLoan "I1" "U1" usuarioAL (by decide) (by decide)).2,
   c6_return_not_idempotent.2 bBase "I1" (by decide)⟩

/-- C10: `devolver_libro` succeeds whenever the loan map has an entry for
`isbn` and the recorded holder is registered, regardless of the holder's own
held list: the removal from that list is attempted and silently skipped when
the ISBN is absent, in which case the holder table is left exactly as it
was.  Success never depends on the holder's list. -/
theorem c10_return_ignores_holder_list :
    ∀ (b : Biblioteca) (isbn uid : String) (u : Usuario),
      alookup b.prestamos isbn = some uid → alookup b.usuarios uid = some u →
      (devolver_libro b isbn).1 = none ∧
      (devolver_libro b isbn).2.prestamos = derase b.prestamos isbn ∧
      (isbn ∉ u.prestados → (devolver_libro b isbn).2.usuarios = b.usuarios) := by
  intro b isbn uid u hp hu
  refine ⟨by simp [devolver_libro, hp, hu], by simp [devolver_libro, hp, hu], ?_⟩
  intro hnm
  have he : u.prestados.erase isbn = u.prestados := List.erase_of_not_mem hnm
  have h1 : (devolver_libro b isbn).2.usuarios
      = dinsert b.usuarios uid { u with prestados := u.prestados.erase isbn } := by
    simp [devolver_libro, hp, hu]
  rw [h1, he]
  exact dinsert_self_id hu

/-- Witness for C10: the ledger records a loan the holder's list lacks, and
the return still succeeds, leaving the holder table untouched. -/
theorem c10_return_ignores_holder_list_witness :
    (devolver_libro bGhost "I1").1 = none ∧
    (devolver_libro bGhost "I1").2.prestamos = derase bGhost.prestamos "I1" ∧
    (devolver_libro bGhost "I1").2.usuarios = bGhost.usuarios :=
  ⟨(c10_return_ignores_holder_list bGhost "I1" "U1" usuarioA (by decide) (by decide)).1,
   (c10_return_ignores_holder_list bGhost "I1" "U1" usuarioA (by decide) (by decide)).2.1,
   (c10_return_ignores_holder_list bGhost "I1" "U1" usuarioA (by decide) (by decide)).2.2
     (by decide)⟩

/-- C3 counterexample: the claim fails on the code.  Registering a holder
whose held list is pre-populated is a single public call on the fresh
service, and it yields a reachable state in which the holder's recorded held
list contains an id with no entry in the loan map: the held view is
independent mutable state that can disagree with the ledger, not a view
obtained from it. -/
theorem c3_view_divergence_counterexample :
    Reachable bPre ∧
    alookup bPre.usuarios "U1" = some usuarioPre ∧
    "B1" ∈ usuarioPre.prestados ∧
    alookup bPre.prestamos "B1" = none :=
  ⟨Reachable.step emptyBib (Op.registrarOp usuarioPre) Reachable.init,
   by decide, by decide, by decide⟩

/-- C3 (amended): restricted to runs whose registrations pass an empty held
list (as every caller in the repository does), each registered holder's
`prestados` list contains exactly those ids whose loan-map entry points at
that holder.  The list is separate mutable state kept in sync by the loan
and return operations, not a view derived from the ledger on demand. -/
theorem c3_held_view_matches_ledger :
    ∀ (b : Biblioteca), ReachableE b →
      ∀ (uid : String) (u : Usuario), alookup b.usuarios uid = some u →
        ∀ i, (i ∈ u.prestados ↔ alookup b.prestamos i = some uid) := by
  intro b hr uid u hu i
  exact (reachableE_inv hr).2.2.1 uid u hu i

/-- Witness for the amended C3 on a concrete three-call run. -/
theorem c3_held_view_matches_ledger_witness :
    ("I1" ∈ usuarioAL.prestados ↔ alookup bR3.prestamos "I1" = some "U1") :=
  c3_held_view_matches_ledger bR3 reachableE_bR3 "U1" usuarioAL (by decide) "I1"

/-- C5: `dar_de_baja_usuario` fails with `holderHasLoans` exactly when the
holder's held sequence is non-empty — equivalently, on any reachable state
with well-formed registrations, exactly when some loan-map entry points at
the holder; otherwise it succeeds and removes the holder from both the
holder table and the unique-id set; an unknown id fails with `notFound`. -/
theorem c5_deregister_holder :
    (∀ (b : Biblioteca) (uid : String) (u : Usuario),
      alookup b.usuarios uid = some u →
      ((dar_de_baja_usuario b uid).1 = some Err.holderHasLoans ↔
        u.prestados ≠ [])) ∧
    (∀ (b : Biblioteca) (uid : String) (u : Usuario),
      alookup b.usuarios uid = some u → uid ∈ b.user_ids → u.prestados = [] →
      (dar_de_baja_usuario b uid).1 = none ∧
      alookup (dar_de_baja_usuario b uid).2.usuarios uid = none ∧
      uid ∉ (dar_de_baja_usuario b uid).2.user_ids) ∧
    (∀ (b : Biblioteca) (uid : String), alookup b.usuarios uid = none →
      (dar_de_baja_usuario b uid).1 = some Err.notFound) ∧
    (∀ (b : Biblioteca) (uid : String) (u : Usuario), ReachableE b →
      alookup b.usuarios uid = some u →
      ((dar_de_baja_usuario b uid).1 = some Err.holderHasLoans ↔
        ∃ i, alookup b.prestamos i = some uid)) := by
  refine ⟨?_, ?_, ?_, ?_⟩
  · intro b uid u hu
    exact baja_err_iff hu
  · intro b uid u hu hmem hemp
    refine ⟨?_, ?_, ?_⟩ <;>
      simp [dar_de_baja_usuario, hu, hemp, hmem, alookup_derase_self,
        mem_setDiscard]
  · intro b uid h
    simp [dar_de_baja_usuario, h]
  · intro b uid u hr hu
    have hS := (reachableE_inv hr).2.2.1
    have hiff : u.prestados ≠ [] ↔ ∃ i, alookup b.prestamos i = some uid := by
      constructor
      · intro hne
        cases hl : u.prestados with
        | nil => exact absurd hl hne
        | cons a t =>
          exact ⟨a, (hS uid u hu a).1 (by rw [hl]; exact List.mem_cons_self a t)⟩
      · rintro ⟨i, hi⟩ hl
        have hmm := (hS uid u hu i).2 hi
        rw [hl] at hmm
        exact absurd hmm (List.not_mem_nil i)
    rw [baja_err_iff hu]
    exact hiff

/-- Witness for C5 at concrete states. -/
theorem c5_deregister_holder_witness :
    (dar_de_baja_usuario bLoan "U1").1 = some Err.holderHasLoans ∧
    (dar_de_baja_usuario bBase "U1").1 = none ∧
    alookup (dar_de_baja_usuario bBase "U1").2.usuarios "U1" = none ∧
    "U1" ∉ (dar_de_baja_usuario bBase "U1").2.user_ids ∧
    (dar_de_baja_usuario emptyBib "U9").1 = some Err.notFound ∧
    (dar_de_baja_usuario bR3 "U1").1 = some Err.holderHasLoans :=
  ⟨(c5_deregister_holder.1 bLoan "U1" usuarioAL (by decide)).2 (by decide),
   (c5_deregister_holder.2.1 bBase "U1" usuarioA (by decide) (by decide)
      (by decide)).1,
   (c5_deregister_holder.2.1 bBase "U1" usuarioA (by decide) (by decide)
      (by decide)).2.1,
   (c5_deregister_holder.2.1 bBase "U1" usuarioA (by decide) (by decide)
      (by decide)).2.2,
   c5_deregister_holder.2.2.1 emptyBib "U9" (by decide),
   (c5_deregister_holder.2.2.2 bR3 "U1" usuarioAL reachableE_bR3
      (by decide)).2 ⟨"I1", by decide⟩⟩

/-- C4: `quitar_libro` fails with `itemLoaned` exactly when the loan map has
an entry for the id (this check precedes everything else); on a loaned
catalogued item the scenario remove-fails / return-succeeds /
remove-succeeds goes through, the final removal deleting the record; and a
successful inventory `eliminar` removes the id from the primary store and
from every bucket of the search index in the same call. -/
theorem c4_remove_vs_loan :
    (∀ (b : Biblioteca) (isbn : String),
      ((quitar_libro b isbn).1 = some Err.itemLoaned ↔
        (alookup b.prestamos isbn).isSome = true)) ∧
    (∀ (b : Biblioteca) (isbn uid : String) (u : Usuario),
      (alookup b.libros isbn).isSome = true →
      alookup b.prestamos isbn = some uid →
      alookup b.usuarios uid = some u →
      (quitar_libro b isbn).1 = some Err.itemLoaned ∧
      (devolver_libro b isbn).1 = none ∧
      (quitar_libro (devolver_libro b isbn).2 isbn).1 = none ∧
      alookup (quitar_libro (devolver_libro b isbn).2 isbn).2.libros isbn = none) ∧
    (∀ (inv : Inventario) (pid : String) (p : Producto) (inv' : Inventario),
      alookup inv.productos pid = some p →
      (∀ i q, alookup inv.productos i = some q → q.pid = i) →
      (∀ k bkt i, alookup inv.index_nombre k = some bkt → i ∈ bkt →
        ∃ q, alookup inv.productos i = some q ∧ norm q.nombre = k) →
      eliminar inv pid = (none, inv') →
      alookup inv'.productos pid = none ∧
      ∀ k bkt, alookup inv'.index_nombre k = some bkt → pid ∉ bkt) := by
  refine ⟨?_, ?_, ?_⟩
  · intro b isbn
    cases hc : alookup b.prestamos isbn with
    | some uid => simp [quitar_libro, hc]
    | none =>
      simp only [quitar_libro, hc]
      rw [if_neg (by simp)]
      split <;> simp
  · intro b isbn uid u hl hp hu
    have hdev1 : (devolver_libro b isbn).2.prestamos = derase b.prestamos isbn := by
      simp [devolver_libro, hp, hu]
    have hdev2 : (devolver_libro b isbn).2.libros = b.libros := by
      simp [devolver_libro, hp, hu]
    have hnone : alookup (devolver_libro b isbn).2.prestamos isbn = none := by
      rw [hdev1]
      exact alookup_derase_self _ _
    obtain ⟨l0, hl0⟩ := Option.isSome_iff_exists.1 hl
    have hq : quitar_libro (devolver_libro b isbn).2 isbn
        = (none, { (devolver_libro b isbn).2 with libros := derase b.libros isbn }) := by
      unfold quitar_libro
      rw [hnone, hdev2, hl0]
      rw [if_neg (by simp), if_neg (by simp)]
    refine ⟨by simp [quitar_libro, hp], by simp [devolver_libro, hp, hu], ?_, ?_⟩
    · rw [hq]
    · rw [hq]
      exact alookup_derase_self _ _
  · intro inv pid p inv' hp hcoh hidx helim
    have hpidp : p.pid = pid := hcoh pid p hp
    have hkey : ∀ k bkt, alookup inv.index_nombre k = some bkt → pid ∈ bkt →
        k = norm p.nombre := by
      intro k bkt hk hm
      obtain ⟨q, hq, hqk⟩ := hidx k bkt pid hk hm
      rw [hp] at hq
      injection hq with he
      subst he
      exact hqk.symm
    unfold eliminar at helim
    split at helim
    · injection helim with h1 h2
      exact Option.noConfusion h1
    · rename_i p0 heq
      rw [hp] at heq
      injection heq with he
      subst he
      injection helim with h1 h2
      subst h2
      constructor
      · exact alookup_derase_self _ _
      · intro k bkt hk hmem
        simp only [index_remove] at hk
        split at hk
        · rename_i heq2
          have hkk := hkey k bkt hk hmem
          rw [hkk, heq2] at hk
          exact Option.noConfusion hk
        · rename_i bkt0 heq2
          split at hk
          · rename_i hb0
            have hkk := hkey k bkt hk hmem
            rw [hkk, heq2] at hk
            injection hk with he2
            subst he2
            rw [hb0] at hmem
            exact absurd hmem (List.not_mem_nil pid)
          · split at hk
            · by_cases hkk : k = norm p.nombre
              · rw [hkk, alookup_derase_self] at hk
                exact Option.noConfusion hk
              · rw [alookup_derase_ne hkk] at hk
                exact hkk (hkey k bkt hk hmem)
            · by_cases hkk : k = norm p.nombre
              · rw [hkk, alookup_dinsert_self] at hk
                injection hk with he2
                rw [← he2] at hmem
                exact absurd (hpidp ▸ (mem_setDiscard.1 hmem).2)
                  (not_not_intro rfl)
              · rw [alookup_dinsert_ne _ hkk] at hk
                exact hkk (hkey k bkt hk hmem)

/-- Witness for C4 on the concrete loaned catalogue and one-item inventory. -/
theorem c4_remove_vs_loan_witness :
    ((quitar_libro bLoan "I1").1 = some Err.itemLoaned ↔
      (alookup bLoan.prestamos "I1").isSome = true) ∧
    (quitar_libro bLoan "I1").1 = some Err.itemLoaned ∧
    (devolver_libro bLoan "I1").1 = none ∧
    (quitar_libro (devolver_libro bLoan "I1").2 "I1").1 = none ∧
    alookup (eliminar invOne "P1").2.productos "P1" = none :=
  ⟨c4_remove_vs_loan.1 bLoan "I1",
   (c4_remove_vs_loan.2.1 bLoan "I1" "U1" usuarioAL (by decide) (by decide)
      (by decide)).1,
   (c4_remove_vs_loan.2.1 bLoan "I1" "U1" usuarioAL (by decide) (by decide)
      (by decide)).2.1,
   (c4_remove_vs_loan.2.1 bLoan "I1" "U1" usuarioAL (by decide) (by decide)
      (by decide)).2.2.1,
   (c4_remove_vs_loan.2.2 invOne "P1" prodA (eliminar invOne "P1").2 (by decide)
      (by
        intro i q hq
        have hx : invOne.productos = [("P1", prodA)] := by decide
        rw [hx] at hq
        simp only [alookup] at hq
        split at hq
        · rename_i hbk
          injection hq with he
          subst he
          subst hbk
          decide
        · exact Option.noConfusion hq)
      (by
        intro k bkt i hk hi
        have hx : invOne.index_nombre = [("b", ["P1"])] := by decide
        rw [hx] at hk
        simp only [alookup] at hk
        split at hk
        · rename_i hbk
          injection hk with he
          subst he
          have hii : i = "P1" := by simpa using hi
          subst hii
          subst hbk
          exact ⟨prodA, by decide, by decide⟩
        · exact Option.noConfusion hk)
      (by decide)).1⟩

/-- C7 counterexample: the claim fails on the code.  The catalogue search
only lowercases; it does not strip diacritics.  The catalogue holds the book
`Año`; the diacritic-stripped, case-folded query `ano` is a substring of the
correspondingly normalized title, so the claim requires the book to be
returned, yet `buscar_libros` returns nothing. -/
theorem c7_accent_counterexample :
    buscar_libros bAno (some "ano") none none = [] ∧
    containsStr (norm "ano") (norm (Libro.titulo libroAno)) = true ∧
    libroAno ∈ bAno.libros.map Prod.snd := by
  refine ⟨by decide, by decide, by decide⟩

/-- C7 (amended): the catalogue search is case-insensitive but
accent-sensitive: a book is returned iff it is in the catalogue and, for each
criterion given, either the stripped-and-lowercased query is empty (absent
criteria impose no filter) or it occurs as a substring of the lowercased
field, the criteria combined conjunctively.  Diacritic stripping belongs to
the inventory's name search, whose scan path matches by `_norm`-ed substring
containment; `containsStr` is exactly list-infix occurrence. -/
theorem c7_search_characterization :
    (∀ (b : Biblioteca) (t a c : Option String) (l : Libro),
      l ∈ buscar_libros b t a c ↔
        l ∈ b.libros.map Prod.snd ∧
        (pyLower (pyStrip (t.getD "")) = "" ∨
          containsStr (pyLower (pyStrip (t.getD ""))) (pyLower l.titulo) = true) ∧
        (pyLower (pyStrip (a.getD "")) = "" ∨
          containsStr (pyLower (pyStrip (a.getD ""))) (pyLower l.autor) = true) ∧
        (pyLower (pyStrip (c.getD "")) = "" ∨
          containsStr (pyLower (pyStrip (c.getD ""))) (pyLower l.categoria) = true)) ∧
    (∀ (inv : Inventario) (q : String) (p : Producto),
      alookup inv.index_nombre (norm q) = none →
      (p ∈ buscar_por_nombre inv q ↔
        p ∈ inv.productos.map Prod.snd ∧
        containsStr (norm q) (norm p.nombre) = true)) ∧
    (∀ (q s : String), containsStr q s = true ↔ q.data.IsInfix s.data) := by
  refine ⟨?_, ?_, ?_⟩
  · intro b t a c l
    simp only [buscar_libros, List.mem_filter, Bool.and_eq_true, Bool.or_eq_true,
      decide_eq_true_eq, and_assoc]
  · intro inv q p hq
    simp only [buscar_por_nombre, hq, List.mem_filter]
  · intro q s
    exact hasSub_iff _ _

/-- Witness for the amended C7: a case-blind hit, an accented inventory hit
through the scan path, and the infix reading of `containsStr`. -/
theorem c7_search_characterization_witness :
    (libroA ∈ buscar_libros bBase none (some "MARTIN") none ↔
      libroA ∈ bBase.libros.map Prod.snd ∧
      (pyLower (pyStrip ((none : Option String).getD "")) = "" ∨
        containsStr (pyLower (pyStrip ((none : Option String).getD "")))
          (pyLower libroA.titulo) = true) ∧
      (pyLower (pyStrip ((some "MARTIN").getD "")) = "" ∨
        containsStr (pyLower (pyStrip ((some "MARTIN").getD "")))
          (pyLower libroA.autor) = true) ∧
      (pyLower (pyStrip ((none : Option String).getD "")) = "" ∨
        containsStr (pyLower (pyStrip ((none : Option String).getD "")))
          (pyLower libroA.categoria) = true)) ∧
    (prodA ∈ buscar_por_nombre invOne "zz" ↔
      prodA ∈ invOne.productos.map Prod.snd ∧
      containsStr (norm "zz") (norm prodA.nombre) = true) ∧
    (containsStr "b" "abc" = true ↔ ("b".data).IsInfix ("abc".data)) :=
  ⟨c7_search_characterization.1 bBase none (some "MARTIN") none libroA,
   c7_search_characterization.2.1 invOne "zz" prodA (by decide),
   c7_search_characterization.2.2 "b" "abc"⟩

/-- C8 counterexample: the claim fails on the code in three ways.  First,
with no explicit sort key (`orden` left at its Python default `"nombre"`),
`listar_todos` returns a name-sorted list, not the insertion order of the
scan.  Second, when a sort key is explicitly requested and two items tie on
it, the tie is not broken by id: the stable sort keeps insertion order
`P9, P0` even though the id order is `P0 < P9`.  Third, the exact-key fast
path of the search does not yield the scan's order: the bucket is a Python
`set` (which guarantees no iteration order at all), and after a rename even
the insertion-ordered model of that set returns the renamed item after an
item that precedes it in the scan. -/
theorem c8_order_claim_counterexample :
    (listar_todos invAB "nombre" = [prodB, prodA] ∧
      invAB.productos.map Prod.snd = [prodA, prodB] ∧ prodA ≠ prodB) ∧
    (listar_todos invTie "cantidad" = [prodT1, prodT2] ∧
      invTie.productos.map Prod.snd = [prodT1, prodT2] ∧
      prodT1.cantidad = prodT2.cantidad ∧
      lexLe prodT2.pid.data prodT1.pid.data = true ∧
      lexLe prodT1.pid.data prodT2.pid.data = false ∧
      prodT1 ≠ prodT2) ∧
    (buscar_por_nombre invRen "y" = [prodY, prodXY] ∧
      (invRen.productos.map Prod.snd).filter
        (fun p => containsStr (norm "y") (norm p.nombre)) = [prodXY, prodY] ∧
      prodXY ≠ prodY) :=
  ⟨⟨by decide, by decide, by decide⟩,
   ⟨by decide, by decide, by decide, by decide, by decide, by decide⟩,
   ⟨by decide, by decide, by decide⟩⟩

/-- C8 (amended): `listar_todos` always sorts — by id for `"id"`, by
quantity and price descending for `"cantidad"` and `"precio"`, and by
normalized name for any other value, in particular the default `"nombre"` —
each listing a sorted permutation of the scan; every one of these sorts is
stable: the items sharing any given sort-key value appear in exactly their
insertion order (ties are kept in insertion order, not broken by id); the
substring search path preserves the insertion order of the scan (its result
is a sublist of it); and the exact-key fast path returns exactly the items
whose normalized name equals the normalized query — resolved in the
bucket's own order, which the counterexample shows need not be the scan
order. -/
theorem c8_result_order :
    (∀ inv : Inventario, List.Sorted pidLe (listar_todos inv "id") ∧
      (listar_todos inv "id").Perm (inv.productos.map Prod.snd)) ∧
    (∀ inv : Inventario, List.Sorted nomLe (listar_todos inv "nombre") ∧
      (listar_todos inv "nombre").Perm (inv.productos.map Prod.snd)) ∧
    (∀ inv : Inventario, List.Sorted cantGe (listar_todos inv "cantidad") ∧
      (listar_todos inv "cantidad").Perm (inv.productos.map Prod.snd)) ∧
    (∀ inv : Inventario, List.Sorted precGe (listar_todos inv "precio") ∧
      (listar_todos inv "precio").Perm (inv.productos.map Prod.snd)) ∧
    (∀ (inv : Inventario) (s : String),
      (listar_todos inv "id").filter (fun p => decide (p.pid = s))
        = (inv.productos.map Prod.snd).filter (fun p => decide (p.pid = s))) ∧
    (∀ (inv : Inventario) (s : String),
      (listar_todos inv "nombre").filter (fun p => decide (norm p.nombre = s))
        = (inv.productos.map Prod.snd).filter
            (fun p => decide (norm p.nombre = s))) ∧
    (∀ (inv : Inventario) (n : Nat),
      (listar_todos inv "cantidad").filter (fun p => decide (p.cantidad = n))
        = (inv.productos.map Prod.snd).filter
            (fun p => decide (p.cantidad = n))) ∧
    (∀ (inv : Inventario) (z : Int),
      (listar_todos inv "precio").filter (fun p => decide (p.precio = z))
        = (inv.productos.map Prod.snd).filter
            (fun p => decide (p.precio = z))) ∧
    (∀ (inv : Inventario) (q : String),
      alookup inv.index_nombre (norm q) = none →
      (buscar_por_nombre inv q).Sublist (inv.productos.map Prod.snd)) ∧
    (∀ (inv : Inventario) (q : String) (bkt : List String),
      alookup inv.index_nombre (norm q) = some bkt →
      (inv.productos.map Prod.fst).Nodup →
      (∀ i, i ∈ bkt ↔ ∃ p, alookup inv.productos i = some p ∧
        norm p.nombre = norm q) →
      ∀ p : Producto, p ∈ buscar_por_nombre inv q ↔
        (p ∈ inv.productos.map Prod.snd ∧ norm p.nombre = norm q)) := by
  haveI : IsTotal Producto pidLe := ⟨fun a b => lexLe_total _ _⟩
  haveI : IsTrans Producto pidLe := ⟨fun a b c h1 h2 => lexLe_trans h1 h2⟩
  haveI : IsTotal Producto nomLe := ⟨fun a b => lexLe_total _ _⟩
  haveI : IsTrans Producto nomLe := ⟨fun a b c h1 h2 => lexLe_trans h1 h2⟩
  haveI : IsTotal Producto cantGe := ⟨fun a b => Nat.le_total b.cantidad a.cantidad⟩
  haveI : IsTrans Producto cantGe := ⟨fun a b c h1 h2 => le_trans h2 h1⟩
  haveI : IsTotal Producto precGe := ⟨fun a b => Int.le_total b.precio a.precio⟩
  haveI : IsTrans Producto precGe := ⟨fun a b c h1 h2 => le_trans h2 h1⟩
  refine ⟨?_, ?_, ?_, ?_, ?_, ?_, ?_, ?_, ?_, ?_⟩
  · intro inv
    rw [listar_id]
    exact ⟨List.sorted_insertionSort _ _, List.perm_insertionSort _ _⟩
  · intro inv
    rw [listar_nombre]
    exact ⟨List.sorted_insertionSort _ _, List.perm_insertionSort _ _⟩
  · intro inv
    rw [listar_cantidad]
    exact ⟨List.sorted_insertionSort _ _, List.perm_insertionSort _ _⟩
  · intro inv
    rw [listar_precio]
    exact ⟨List.sorted_insertionSort _ _, List.perm_insertionSort _ _⟩
  · intro inv s
    rw [listar_id]
    refine filter_insertionSort pidLe _ ?_ _
    intro x y hx hy
    have hx2 := of_decide_eq_true hx
    have hy2 := of_decide_eq_true hy
    show lexLe x.pid.data y.pid.data = true
    rw [hx2, hy2]
    exact lexLe_refl _
  · intro inv s
    rw [listar_nombre]
    refine filter_insertionSort nomLe _ ?_ _
    intro x y hx hy
    have hx2 := of_decide_eq_true hx
    have hy2 := of_decide_eq_true hy
    show lexLe (norm x.nombre).data (norm y.nombre).data = true
    rw [hx2, hy2]
    exact lexLe_refl _
  · intro inv n
    rw [listar_cantidad]
    refine filter_insertionSort cantGe _ ?_ _
    intro x y hx hy
    have hx2 := of_decide_eq_true hx
    have hy2 := of_decide_eq_true hy
    show y.cantidad ≤ x.cantidad
    rw [hx2, hy2]
  · intro inv z
    rw [listar_precio]
    refine filter_insertionSort precGe _ ?_ _
    intro x y hx hy
    have hx2 := of_decide_eq_true hx
    have hy2 := of_decide_eq_true hy
    show y.precio ≤ x.precio
    rw [hx2, hy2]
  · intro inv q hq
    simp only [buscar_por_nombre, hq]
    exact List.filter_sublist _
  · intro inv q bkt hb hnd hcomp p
    simp only [buscar_por_nombre, hb]
    constructor
    · intro hp
      obtain ⟨i, hib, hip⟩ := List.mem_filterMap.1 hp
      obtain ⟨p', hp', hn'⟩ := (hcomp i).1 hib
      rw [hip] at hp'
      injection hp' with he
      subst he
      exact ⟨List.mem_map.2 ⟨(i, p), alookup_some_mem hip, rfl⟩, hn'⟩
    · rintro ⟨hscan, hnorm⟩
      obtain ⟨e, hem, hesnd⟩ := List.mem_map.1 hscan
      have he2 : (e.1, p) ∈ inv.productos := by
        rw [← hesnd]
        exact hem
      have hlk : alookup inv.productos e.1 = some p :=
        mem_alookup_of_nodupKeys hnd he2
      have hib : e.1 ∈ bkt := (hcomp e.1).2 ⟨p, hlk, hnorm⟩
      exact List.mem_filterMap.2 ⟨e.1, hib, hlk⟩

/-- Witness for the amended C8 on concrete inventories: a sorted listing, a
tied listing whose key-class keeps insertion order, a scan-path sublist, and
the fast-path membership characterization with its invariants discharged on
`invAB`. -/
theorem c8_result_order_witness :
    List.Sorted pidLe (listar_todos invAB "id") ∧
    List.Sorted cantGe (listar_todos invTie "cantidad") ∧
    (listar_todos invTie "cantidad").filter (fun p => decide (p.cantidad = 5))
      = (invTie.productos.map Prod.snd).filter
          (fun p => decide (p.cantidad = 5)) ∧
    (buscar_por_nombre invOne "zz").Sublist (invOne.productos.map Prod.snd) ∧
    (prodB ∈ buscar_por_nombre invAB "a" ↔
      (prodB ∈ invAB.productos.map Prod.snd ∧ norm prodB.nombre = norm "a")) :=
  ⟨(c8_result_order.1 invAB).1,
   (c8_result_order.2.2.1 invTie).1,
   c8_result_order.2.2.2.2.2.2.1 invTie 5,
   c8_result_order.2.2.2.2.2.2.2.2.1 invOne "zz" (by decide),
   c8_result_order.2.2.2.2.2.2.2.2.2 invAB "a" ["P2"] (by decide) (by decide)
     (by
       intro i
       constructor
       · intro hib
         have hii : i = "P2" := by simpa using hib
         subst hii
         exact ⟨prodB, by decide, by decide⟩
       · rintro ⟨p, hp, hn⟩
         have hx : invAB.productos = [("P1", prodA), ("P2", prodB)] := by decide
         rw [hx] at hp
         simp only [alookup] at hp
         split at hp
         · injection hp with he
           subst he
           exact absurd hn (by decide)
         · split at hp
           · rename_i h2
             subst h2
             decide
           · exact Option.noConfusion hp)
     prodB⟩

/-- C9: adding a fresh item and removing it with no intervening loan always
succeeds and restores the exact pre-add state, both for the catalogue
(primary store) and for the inventory (primary store and search index
together; the index hypotheses — the fresh id sits in no bucket and no
bucket is an empty leftover — hold in every state the class can build). -/
theorem c9_add_remove_roundtrip :
    (∀ (b : Biblioteca) (l : Libro),
      alookup b.libros l.isbn = none → alookup b.prestamos l.isbn = none →
      (anadir_libro b l).1 = none ∧
      (quitar_libro (anadir_libro b l).2 l.isbn).1 = none ∧
      (quitar_libro (anadir_libro b l).2 l.isbn).2 = b) ∧
    (∀ (inv : Inventario) (p : Producto),
      alookup inv.productos p.pid = none →
      (∀ k bkt, alookup inv.index_nombre k = some bkt → p.pid ∉ bkt) →
      (∀ k bkt, alookup inv.index_nombre k = some bkt → bkt ≠ []) →
      (agregar inv p).1 = none ∧
      (eliminar (agregar inv p).2 p.pid).1 = none ∧
      (eliminar (agregar inv p).2 p.pid).2 = inv) := by
  constructor
  · intro b l hl hp
    have h1 : (anadir_libro b l).2
        = { b with libros := dinsert b.libros l.isbn l } := by
      simp [anadir_libro, hl]
    have h4 : quitar_libro { b with libros := dinsert b.libros l.isbn l } l.isbn
        = (none, { b with libros := derase (dinsert b.libros l.isbn l) l.isbn }) := by
      unfold quitar_libro
      rw [if_neg (by simp [hp]), if_neg (by simp [alookup_dinsert_self])]
    refine ⟨by simp [anadir_libro, hl], ?_, ?_⟩
    · rw [h1, h4]
    · rw [h1, h4]
      show { b with libros := derase (dinsert b.libros l.isbn l) l.isbn } = b
      rw [dinsert_fresh _ hl, derase_append_fresh _ hl]
  · intro inv p hp hb hne
    have hadd : (agregar inv p).2
        = { productos := dinsert inv.productos p.pid p,
            index_nombre := index_add inv.index_nombre p } := by
      simp [agregar, hp]
    have hprod : derase (dinsert inv.productos p.pid p) p.pid = inv.productos := by
      rw [dinsert_fresh _ hp]
      exact derase_append_fresh _ hp
    have hidx : index_remove (index_add inv.index_nombre p) p = inv.index_nombre := by
      cases hc : alookup inv.index_nombre (norm p.nombre) with
      | none =>
        have h1 : alookup (inv.index_nombre ++ [(norm p.nombre, [p.pid])])
            (norm p.nombre) = some [p.pid] := by
          rw [alookup_append_none _ hc]
          simp [alookup]
        simp only [index_add, index_remove, hc, h1]
        rw [if_neg (by simp)]
        simp [setDiscard, derase_append_fresh _ hc]
      | some bkt =>
        have hbne := hne _ bkt hc
        have hnm := hb _ bkt hc
        have hsa : setAdd bkt p.pid = bkt ++ [p.pid] := setAdd_of_not_mem hnm
        have h1 : alookup (dinsert inv.index_nombre (norm p.nombre) (bkt ++ [p.pid]))
            (norm p.nombre) = some (bkt ++ [p.pid]) := alookup_dinsert_self _ _ _
        have h2 : setDiscard (bkt ++ [p.pid]) p.pid = bkt :=
          setDiscard_append_self hnm
        simp only [index_add, index_remove, hc, hsa, h1, h2]
        rw [if_neg (by simp), if_neg hbne]
        rw [dinsert_dinsert, dinsert_self_id hc]
    have hdel : eliminar (agregar inv p).2 p.pid
        = (none, { productos := derase (dinsert inv.productos p.pid p) p.pid,
                   index_nombre := index_remove (index_add inv.index_nombre p) p }) := by
      rw [hadd]
      unfold eliminar
      rw [show alookup (dinsert inv.productos p.pid p) p.pid = some p from
        alookup_dinsert_self _ _ _]
    refine ⟨by simp [agregar, hp], ?_, ?_⟩
    · rw [hdel]
    · rw [hdel]
      show ({ productos := derase (dinsert inv.productos p.pid p) p.pid,
              index_nombre := index_remove (index_add inv.index_nombre p) p }
            : Inventario) = inv
      rw [hprod, hidx]

/-- Witness for C9 starting from the empty catalogue and inventory. -/
theorem c9_add_remove_roundtrip_witness :
    (anadir_libro emptyBib libroA).1 = none ∧
    (quitar_libro (anadir_libro emptyBib libroA).2 libroA.isbn).1 = none ∧
    (quitar_libro (anadir_libro emptyBib libroA).2 libroA.isbn).2 = emptyBib ∧
    (agregar emptyInv prodA).1 = none ∧
    (eliminar (agregar emptyInv prodA).2 prodA.pid).1 = none ∧
    (eliminar (agregar emptyInv prodA).2 prodA.pid).2 = emptyInv :=
  ⟨(c9_add_remove_roundtrip.1 emptyBib libroA (by decide) (by decide)).1,
   (c9_add_remove_roundtrip.1 emptyBib libroA (by decide) (by decide)).2.1,
   (c9_add_remove_roundtrip.1 emptyBib libroA (by decide) (by decide)).2.2,
   (c9_add_remove_roundtrip.2 emptyInv prodA (by decide)
      (by intro k bkt h; exact Option.noConfusion h)
      (by intro k bkt h; exact Option.noConfusion h)).1,
   (c9_add_remove_roundtrip.2 emptyInv prodA (by decide)
      (by intro k bkt h; exact Option.noConfusion h)
      (by intro k bkt h; exact Option.noConfusion h)).2.1,
   (c9_add_remove_roundtrip.2 emptyInv prodA (by decide)
      (by intro k bkt h; exact Option.noConfusion h)
      (by intro k bkt h; exact Option.noConfusion h)).2.2⟩

end Catalog
